import Mathlib

/-!
File-processor dispatcher (`refactored.cpp`): embedding and verified properties

The C++ program is embedded as pure functions over an explicit `World`:
standard output, the file system as seen by `std::ifstream`, the C library's
random source, the wall clock and the free store.

Conventions of the embedding

* A call either returns normally, leaves by a C++ exception, or has undefined
  behaviour (`Res.ok`, `Res.throw`, `Res.ub`).
* `std::unique_ptr<FileProcessor>` is `Option FileProcessor`; the empty pointer
  is `none`.  The class hierarchy is the closed sum `FileProcessor`, and a
  virtual call is a `match` on it.
* The free store never runs out: `operator new[]` always succeeds, so the
  `catch (std::bad_alloc &)` handler of the `FileEncryptor` constructor, which
  only rethrows, is kept in the embedding but never entered.
* `delete p` applied to a block obtained from `new char[16]` releases the
  block (the behaviour of the mainstream implementations for `char`).
  Releasing a block that has been released already is undefined behaviour.
* `rand()` returns a non-negative `int`, so `%` is the remainder on `Nat`.
-/

namespace Refactored

/-! ## The world -/

/-- A block of the free store holding `char` cells; `none` is a cell whose
value is indeterminate.  `live` turns `false` when the block is released. -/
structure Block where
  cells : List (Option Nat)
  live : Bool

/-- The values the program throws: a `std::string` (the open-failure report)
or `std::bad_alloc`. -/
inductive Exn where
  | str (s : String)
  | badAlloc

/-- Everything outside the program's objects. -/
structure World where
  /-- the value `time(NULL)` returns -/
  clock : Nat
  /-- the C library's generator: seed and call number to the value of `rand()` -/
  libcRand : Nat → Nat → Nat
  /-- the seed installed by the last `srand` -/
  seed : Nat
  /-- number of `rand()` calls since the last `srand` -/
  randCalls : Nat
  /-- contents of every path that `std::ifstream` can open; `none`: cannot be opened -/
  fs : String → Option String
  /-- everything written to `std::cout` so far -/
  out : String
  /-- the free store, by address -/
  heap : Nat → Option Block
  /-- the address the next allocation returns -/
  brk : Nat

/-- Outcome of a call: normal return, exception, or undefined behaviour. -/
inductive Res (α : Type) where
  | ok (a : α) (w : World)
  | throw (e : Exn) (w : World)
  | ub

/-- Sequencing: exceptions and undefined behaviour propagate. -/
def Res.bind {α β : Type} (r : Res α) (k : α → World → Res β) : Res β :=
  match r with
  | .ok a w => k a w
  | .throw e w => .throw e w
  | .ub => .ub

/-- The effect of `std::cout << s`. -/
def cout (w : World) (s : String) : World :=
  { w with out := w.out ++ s }

/-- The library call `time(NULL)`. -/
def time (w : World) : Nat := w.clock

/-- The library call `srand(s)`; the argument is converted to `unsigned int`. -/
def srand (w : World) (s : Nat) : World :=
  { w with seed := s % 2 ^ 32, randCalls := 0 }

/-- The library call `rand()`. -/
def rand (w : World) : Nat × World :=
  (w.libcRand w.seed w.randCalls, { w with randCalls := w.randCalls + 1 })

/-- The expression `new char[n]`: a fresh live block of `n` indeterminate cells. -/
def newCharArray (w : World) (n : Nat) : Res Nat :=
  .ok w.brk
    { w with
      heap := Function.update w.heap w.brk (some ⟨List.replicate n none, true⟩)
      brk := w.brk + 1 }

/-- Conversion of an `int` value to `char` on assignment. -/
def toChar (n : Nat) : Nat := n % 256

/-- The assignment `p[i] = c`.  `none`: undefined behaviour (null or dangling
pointer, or an index outside the block). -/
def storeChar (w : World) (p : Option Nat) (i : Nat) (c : Nat) : Option World :=
  match p with
  | none => none
  | some a =>
    match w.heap a with
    | none => none
    | some b =>
      if b.live = true ∧ i < b.cells.length then
        some { w with heap := Function.update w.heap a (some { b with cells := b.cells.set i (some c) }) }
      else none

/-- The statement `delete p`. -/
def deletePtr (w : World) (p : Option Nat) : Res Unit :=
  match p with
  | none => .ok () w
  | some a =>
    match w.heap a with
    | none => .ub
    | some b =>
      if b.live = true then
        .ok () { w with heap := Function.update w.heap a (some { b with live := false }) }
      else .ub

/-- The characters of a NUL-terminated string stored in `cells`; `none` when
the read meets an indeterminate cell or runs off the block. -/
def cstr : List (Option Nat) → Option (List Char)
  | [] => none
  | none :: _ => none
  | some 0 :: _ => some []
  | some (n + 1) :: rest => (cstr rest).map (fun cs => Char.ofNat (n + 1) :: cs)

/-- What `std::cout << p` prints for a `char *`; `none`: undefined behaviour. -/
def readCString (w : World) (p : Option Nat) : Option String :=
  match p with
  | none => none
  | some a =>
    match w.heap a with
    | none => none
    | some b => if b.live = true then (cstr b.cells).map String.mk else none

/-- The classification `std::isspace` in the "C" locale. -/
def isspace (c : Char) : Bool :=
  c.toNat == 32 || (9 ≤ c.toNat && c.toNat ≤ 13)

/-- The effect of `inp >> fileContent` on a freshly opened stream: skip leading
white space, then take characters up to the next white space or the end.  An
empty result is the failed extraction, which leaves `fileContent` empty. -/
def extractToken (content : String) : String :=
  String.mk ((content.data.dropWhile isspace).takeWhile (fun c => !isspace c))

/-- The exception object built by
`"Troubles with openning \"" + filePath + "\""`. -/
def openFailure (filePath : String) : Exn :=
  .str ("Troubles with openning \"" ++ filePath ++ "\"")

/-! ## The processors -/

/-- `FileEncoder::encodeFile`. -/
def FileEncoder.encodeFile (w : World) (fileContent : String) : World :=
  cout (cout (cout w "encoding file with content: ") fileContent) "\n"

/-- `FileEncoder::processFile`. -/
def FileEncoder.processFile (w : World) (filePath : String) : Res Unit :=
  match w.fs filePath with
  | none => .throw (openFailure filePath) w
  | some content => .ok () (FileEncoder.encodeFile w (extractToken content))

/-- The data members of `FileCompressor`. -/
structure FileCompressor where
  _param1 : String
  _param2 : String
  deriving DecidableEq

/-- `std::swap` on two strings. -/
def swap (a b : String) : String × String := (b, a)

/-- `FileCompressor::FileCompressor(const param_t &, const param_t &)`. -/
def FileCompressor.ctor (param1 param2 : String) : FileCompressor :=
  { _param1 := param1, _param2 := param2 }

/-- `FileCompressor::FileCompressor(FileCompressor && another)`: returns the
new object and `another` after the call. -/
def FileCompressor.moveCtor (another : FileCompressor) : FileCompressor × FileCompressor :=
  let this : FileCompressor := { _param1 := "", _param2 := "" }
  let s1 := swap this._param1 another._param1
  let s2 := swap this._param2 another._param2
  ({ _param1 := s1.1, _param2 := s2.1 }, { _param1 := s1.2, _param2 := s2.2 })

/-- `FileCompressor::operator=(FileCompressor && another)`: returns `*this`
and `another` after the call. -/
def FileCompressor.moveAssign (this another : FileCompressor) : FileCompressor × FileCompressor :=
  let s1 := swap this._param1 another._param1
  let s2 := swap this._param2 another._param2
  ({ _param1 := s1.1, _param2 := s2.1 }, { _param1 := s1.2, _param2 := s2.2 })

/-- `FileCompressor::compressFile`. -/
def FileCompressor.compressFile (this : FileCompressor) (w : World) (fileContent : String) : World :=
  cout (cout (cout (cout (cout (cout (cout w "compressing file with content: ") fileContent)
    " using params ") this._param1) " ") this._param2) "\n"

/-- `FileCompressor::processFile`. -/
def FileCompressor.processFile (this : FileCompressor) (w : World) (filePath : String) : Res Unit :=
  match w.fs filePath with
  | none => .throw (openFailure filePath) w
  | some content => .ok () (this.compressFile w (extractToken content))

/-- The data member of `FileEncryptor`: the pointer `_encryptionKey`
(`none` is `nullptr`). -/
structure FileEncryptor where
  _encryptionKey : Option Nat

/-- The loop `for (int i = 0; i < 15; ++i) _encryptionKey[i] = rand() % 64 + ' ';`. -/
def FileEncryptor.fillKey (p : Option Nat) (w : World) : Option World :=
  (List.range 15).foldlM
    (fun w i =>
      let r := rand w
      storeChar r.2 p i (toChar (r.1 % 64 + 32)))
    w

/-- `FileEncryptor::FileEncryptor()`. -/
def FileEncryptor.ctor (w : World) : Res FileEncryptor :=
  match newCharArray w 16 with
  | .throw e w1 => .throw e w1
  | .ub => .ub
  | .ok a w1 =>
    let p : Option Nat := some a
    let w2 := srand w1 (time w1)
    match FileEncryptor.fillKey p w2 with
    | none => .ub
    | some w3 =>
      match storeChar w3 p 15 0 with
      | none => .ub
      | some w4 => .ok { _encryptionKey := p } w4

/-- `FileEncryptor::clearKey`.  The object is returned as the call leaves it:
the pointer member is not assigned. -/
def FileEncryptor.clearKey (this : FileEncryptor) (w : World) : Res FileEncryptor :=
  let w1 := cout w "Clearing encryption key\n"
  (deletePtr w1 this._encryptionKey).bind (fun _ w2 => .ok this w2)

/-- `FileEncryptor::encryptFile`. -/
def FileEncryptor.encryptFile (this : FileEncryptor) (w : World) (fileContent : String) : Res Unit :=
  let w1 := cout (cout (cout w "encrypting file with content: ") fileContent) " using key "
  match readCString w1 this._encryptionKey with
  | none => .ub
  | some key => .ok () (cout (cout w1 key) "\n")

/-- `FileEncryptor::processFile`. -/
def FileEncryptor.processFile (this : FileEncryptor) (w : World) (filePath : String) : Res Unit :=
  match w.fs filePath with
  | none => .throw (openFailure filePath) w
  | some content => this.encryptFile w (extractToken content)

/-- `FileEncryptor::~FileEncryptor`. -/
def FileEncryptor.dtor (this : FileEncryptor) (w : World) : Res Unit :=
  (this.clearKey w).bind (fun _ w1 => .ok () w1)

/-- The closed class hierarchy below `FileProcessor`. -/
inductive FileProcessor where
  | identity
  | encoder
  | compressor (c : FileCompressor)
  | encryptor (e : FileEncryptor)

/-- The virtual call `fp->processFile(filePath)` on a non-null pointer. -/
def FileProcessor.processFile (fp : FileProcessor) (w : World) (filePath : String) : Res Unit :=
  match fp with
  | .identity => .ok () w
  | .encoder => FileEncoder.processFile w filePath
  | .compressor c => c.processFile w filePath
  | .encryptor e => e.processFile w filePath

/-- The virtual destructor. -/
def FileProcessor.destroy (fp : FileProcessor) (w : World) : Res Unit :=
  match fp with
  | .encryptor e => e.dtor w
  | _ => .ok () w

/-- Destruction of a `std::unique_ptr<FileProcessor>`. -/
def destroyUniquePtr (fp : Option FileProcessor) (w : World) : Res Unit :=
  match fp with
  | none => .ok () w
  | some p => p.destroy w

/-! ## The factory and `main` -/

/-- `FileProcessorFactorySingleton::createFileProcessor`. -/
def createFileProcessor (w : World) (mode : String) : Res (Option FileProcessor) :=
  let fp_uptr : Option FileProcessor := none
  if mode = "encode" then .ok (some .encoder) w
  else if mode = "identity" then .ok (some .identity) w
  else if mode = "compress" then
    .ok (some (.compressor (FileCompressor.ctor "Hello" "World"))) w
  else if mode = "encrypt" then
    (FileEncryptor.ctor w).bind (fun e w1 => .ok (some (.encryptor e)) w1)
  else .ok fp_uptr w

/-- The loop `for (int i = 2; i < argc; ++i) fp->processFile(argv[i]);`, over
the arguments from `argv[2]` on.  A call through the empty pointer is undefined
behaviour. -/
def processLoop (fp : Option FileProcessor) (w : World) : List String → Res Unit
  | [] => .ok () w
  | path :: rest =>
    match fp with
    | none => .ub
    | some p =>
      match p.processFile w path with
      | .ok _ w1 => processLoop fp w1 rest
      | .throw e w1 => .throw e w1
      | .ub => .ub

/-- The function `main`, on the argument vector `argv` (`argv[0]` included).
With fewer than two entries `argv[1]` is not a string and constructing `mode`
is undefined behaviour.  An exception leaving `createFileProcessor` is not
caught.  `fp` is destroyed after the returned value is fixed. -/
def main (w : World) (argv : List String) : Res Int :=
  match argv with
  | [] => .ub
  | [_] => .ub
  | _ :: mode :: paths =>
    match createFileProcessor w mode with
    | .throw e w1 => .throw e w1
    | .ub => .ub
    | .ok fp w1 =>
      match processLoop fp w1 paths with
      | .ok _ w2 => (destroyUniquePtr fp w2).bind (fun _ w3 => .ok 1 w3)
      | .throw _ w2 =>
        let w3 := cout w2 "Something wrong"
        (destroyUniquePtr fp w3).bind (fun _ w4 => .ok 0 w4)
      | .ub => .ub

/-! ## Auxiliary definitions used in the statements -/

/-- A concrete world: `a.txt` holds the single token `data`, `b.txt` holds two
words after leading blanks, nothing else can be opened; nothing has been
printed and the free store is empty. -/
def exampleWorld : World :=
  { clock := 1700000000
    libcRand := fun s i => s + 7 * i
    seed := 1
    randCalls := 0
    fs := fun p =>
      if p = "a.txt" then some "data" else if p = "b.txt" then some "  two words\n" else none
    out := ""
    heap := fun _ => none
    brk := 0 }

/-- The value the `i`-th call of `rand()` returns after `srand(time(NULL))`
was executed in `w`. -/
def randAt (w : World) (i : Nat) : Nat :=
  w.libcRand (w.clock % 2 ^ 32) i

/-- The sixteen cells of the key buffer built in `w`. -/
def keyCells (w : World) : List (Option Nat) :=
  (List.range 15).map (fun i => some (randAt w i % 64 + 32)) ++ [some 0]

/-- The world the `FileEncryptor` constructor leaves when started in `w`. -/
def keyedWorld (w : World) : World :=
  { w with
    seed := w.clock % 2 ^ 32
    randCalls := 15
    heap := Function.update w.heap w.brk (some ⟨keyCells w, true⟩)
    brk := w.brk + 1 }

/-- The key built in `w`, as the text `std::cout` prints for it. -/
def keyText (w : World) : String :=
  String.mk ((List.range 15).map (fun i => Char.ofNat (randAt w i % 64 + 32)))

/-- Concatenation of the lines of a list. -/
def concatLines : List String → String
  | [] => ""
  | s :: rest => s ++ concatLines rest

/-- The line printed for an opened file with content `content` by the
processor that `mode` selects ("encode", "compress", otherwise "encrypt"), in a
run of `main` started in `w`. -/
def description (w : World) (mode content : String) : String :=
  if mode = "encode" then
    "encoding file with content: " ++ extractToken content ++ "\n"
  else if mode = "compress" then
    "compressing file with content: " ++ extractToken content ++ " using params Hello World\n"
  else
    "encrypting file with content: " ++ extractToken content ++ " using key " ++ keyText w ++ "\n"

/-- The line for the file at `path`, given what each content is described by;
empty when the path cannot be opened. -/
def lineAt (fs : String → Option String) (line : String → String) (path : String) : String :=
  match fs path with
  | some content => line content
  | none => ""

/-- What the destruction of the processor prints at the end of `main`: the
message of `clearKey` for "encrypt", nothing for the other modes. -/
def epilogue (mode : String) : String :=
  if mode = "encrypt" then "Clearing encryption key\n" else ""

/-- The white-space characters of the "C" locale, listed one by one: space,
horizontal tab, line feed, vertical tab, form feed, carriage return.  Used to
say what a white-space-delimited token is without reference to the
tokenizer. -/
def whitespace : List Char := [' ', '\t', '\n', '\x0b', '\x0c', '\r']

/-! ## Basic facts -/

@[simp] theorem cout_out (w : World) (s : String) : (cout w s).out = w.out ++ s := rfl

@[simp] theorem cout_fs (w : World) (s : String) : (cout w s).fs = w.fs := rfl

@[simp] theorem cout_heap (w : World) (s : String) : (cout w s).heap = w.heap := rfl

theorem cout_cout (w : World) (s t : String) : cout (cout w s) t = cout w (s ++ t) := by
  simp [cout, String.append_assoc]

theorem cout_empty (w : World) : cout w "" = w := by
  simp [cout]

theorem range15 : List.range 15 = [0, 1, 2, 3, 4, 5, 6, 7, 8, 9, 10, 11, 12, 13, 14] := by
  decide

theorem toChar_key (r : Nat) : toChar (r % 64 + 32) = r % 64 + 32 := by
  unfold toChar
  apply Nat.mod_eq_of_lt
  omega

/-- The constructor never meets undefined behaviour and leaves `keyedWorld`. -/
theorem ctor_eq (w : World) :
    FileEncryptor.ctor w = .ok { _encryptionKey := some w.brk } (keyedWorld w) := by
  simp [FileEncryptor.ctor, newCharArray, FileEncryptor.fillKey, range15, List.foldlM, storeChar,
    rand, srand, time, toChar_key, keyedWorld, keyCells, randAt, List.replicate]

@[simp] theorem keyedWorld_fs (w : World) : (keyedWorld w).fs = w.fs := rfl

@[simp] theorem keyedWorld_out (w : World) : (keyedWorld w).out = w.out := rfl

@[simp] theorem keyedWorld_heap_brk (w : World) :
    (keyedWorld w).heap w.brk = some ⟨keyCells w, true⟩ := by
  simp [keyedWorld]

theorem cstr_keyCells (w : World) : cstr (keyCells w) = some (keyText w).data := by
  simp [keyCells, keyText, range15, cstr]

/-- Printing the key succeeds in every world whose block at `a` is the live
key buffer built in `w`. -/
theorem readCString_key (w v : World) (a : Nat) (h : v.heap a = some ⟨keyCells w, true⟩) :
    readCString v (some a) = some (keyText w) := by
  simp [readCString, h, cstr_keyCells]

/-! ## The factory -/

/-- C1: for a mode string that is none of "identity", "encode", "compress",
"encrypt", `createFileProcessor` returns the empty pointer and leaves the world
as it was; in particular it returns no processor of any variant. -/
theorem C1_unrecognized_mode_gives_empty (w : World) (mode : String)
    (h1 : mode ≠ "identity") (h2 : mode ≠ "encode")
    (h3 : mode ≠ "compress") (h4 : mode ≠ "encrypt") :
    createFileProcessor w mode = .ok none w ∧
      ∀ (fp : FileProcessor) (w1 : World), createFileProcessor w mode ≠ .ok (some fp) w1 := by
  have h : createFileProcessor w mode = .ok none w := by
    simp [createFileProcessor, h1, h2, h3, h4]
  refine ⟨h, ?_⟩
  intro fp w1 hc
  rw [h] at hc
  cases hc

/-- C1 at the mode "bogus" in the example world. -/
theorem C1_unrecognized_mode_gives_empty_witness :
    ("bogus" ≠ "identity" ∧ "bogus" ≠ "encode" ∧ "bogus" ≠ "compress" ∧ "bogus" ≠ "encrypt") ∧
      (createFileProcessor exampleWorld "bogus" = .ok none exampleWorld ∧
        ∀ (fp : FileProcessor) (w1 : World),
          createFileProcessor exampleWorld "bogus" ≠ .ok (some fp) w1) :=
  ⟨by decide,
    C1_unrecognized_mode_gives_empty exampleWorld "bogus"
      (by decide) (by decide) (by decide) (by decide)⟩

/-- C2: each recognized mode yields a non-empty pointer to the variant it
names ("compress" with the parameters "Hello" and "World"), and processing a
file that can be opened with that processor returns normally, so no failure of
any kind is reported. -/
theorem C2_recognized_modes_give_their_variant (w : World) (path content : String)
    (h : w.fs path = some content) :
    (createFileProcessor w "identity" = .ok (some .identity) w ∧
      ∃ w2, FileProcessor.identity.processFile w path = .ok () w2) ∧
    (createFileProcessor w "encode" = .ok (some .encoder) w ∧
      ∃ w2, FileProcessor.encoder.processFile w path = .ok () w2) ∧
    (createFileProcessor w "compress"
        = .ok (some (.compressor { _param1 := "Hello", _param2 := "World" })) w ∧
      ∃ w2, (FileProcessor.compressor { _param1 := "Hello", _param2 := "World" }).processFile
        w path = .ok () w2) ∧
    (∃ e w1, createFileProcessor w "encrypt" = .ok (some (.encryptor e)) w1 ∧
      ∃ w2, (FileProcessor.encryptor e).processFile w1 path = .ok () w2) := by
  refine ⟨⟨by simp [createFileProcessor], ⟨w, rfl⟩⟩, ⟨by simp [createFileProcessor], ?_⟩,
    ⟨by simp [createFileProcessor, FileCompressor.ctor], ?_⟩, ?_⟩
  · exact ⟨FileEncoder.encodeFile w (extractToken content), by
      simp [FileProcessor.processFile, FileEncoder.processFile, h]⟩
  · exact ⟨FileCompressor.compressFile { _param1 := "Hello", _param2 := "World" } w
      (extractToken content), by
      simp [FileProcessor.processFile, FileCompressor.processFile, h]⟩
  · refine ⟨{ _encryptionKey := some w.brk }, keyedWorld w, ?_, ?_⟩
    · simp [createFileProcessor, ctor_eq, Res.bind]
    · have hk := readCString_key w
        (cout (cout (cout (keyedWorld w) "encrypting file with content: ")
          (extractToken content)) " using key ") w.brk (by simp)
      exact ⟨cout (cout (cout (cout (cout (keyedWorld w) "encrypting file with content: ")
        (extractToken content)) " using key ") (keyText w)) "\n", by
        simp [FileProcessor.processFile, FileEncryptor.processFile, h,
          FileEncryptor.encryptFile, hk]⟩

/-- C2 at the file `a.txt` of the example world. -/
theorem C2_recognized_modes_give_their_variant_witness :
    exampleWorld.fs "a.txt" = some "data" ∧
    ((createFileProcessor exampleWorld "identity" = .ok (some .identity) exampleWorld ∧
      ∃ w2, FileProcessor.identity.processFile exampleWorld "a.txt" = .ok () w2) ∧
    (createFileProcessor exampleWorld "encode" = .ok (some .encoder) exampleWorld ∧
      ∃ w2, FileProcessor.encoder.processFile exampleWorld "a.txt" = .ok () w2) ∧
    (createFileProcessor exampleWorld "compress"
        = .ok (some (.compressor { _param1 := "Hello", _param2 := "World" })) exampleWorld ∧
      ∃ w2, (FileProcessor.compressor { _param1 := "Hello", _param2 := "World" }).processFile
        exampleWorld "a.txt" = .ok () w2) ∧
    (∃ e w1, createFileProcessor exampleWorld "encrypt" = .ok (some (.encryptor e)) w1 ∧
      ∃ w2, (FileProcessor.encryptor e).processFile w1 "a.txt" = .ok () w2)) :=
  ⟨by decide, C2_recognized_modes_give_their_variant exampleWorld "a.txt" "data" (by decide)⟩

/-! ## Opening failures -/

/-- C3: when `path` cannot be opened, `processFile` of the encoder, of any
compressor and of any encryptor leaves by throwing the string
`Troubles with openning "<path>"`, which contains the path, and the world at
the throw is the world of the call: nothing was written to standard output. -/
theorem C3_open_failure_throws_with_path (w : World) (path : String) (c : FileCompressor)
    (e : FileEncryptor) (h : w.fs path = none) :
    ∃ reason : String,
      reason = "Troubles with openning \"" ++ path ++ "\"" ∧
      (∃ a b : String, reason = a ++ path ++ b) ∧
      FileEncoder.processFile w path = .throw (.str reason) w ∧
      c.processFile w path = .throw (.str reason) w ∧
      e.processFile w path = .throw (.str reason) w := by
  refine ⟨_, rfl, ⟨_, _, rfl⟩, ?_, ?_, ?_⟩
  · simp [FileEncoder.processFile, h, openFailure]
  · simp [FileCompressor.processFile, h, openFailure]
  · simp [FileEncryptor.processFile, h, openFailure]

/-- C3 at the path `missing.txt`, which the example world cannot open. -/
theorem C3_open_failure_throws_with_path_witness :
    exampleWorld.fs "missing.txt" = none ∧
    ∃ reason : String,
      reason = "Troubles with openning \"" ++ "missing.txt" ++ "\"" ∧
      (∃ a b : String, reason = a ++ "missing.txt" ++ b) ∧
      FileEncoder.processFile exampleWorld "missing.txt" = .throw (.str reason) exampleWorld ∧
      (FileCompressor.ctor "Hello" "World").processFile exampleWorld "missing.txt"
        = .throw (.str reason) exampleWorld ∧
      (FileEncryptor.mk (some 0)).processFile exampleWorld "missing.txt"
        = .throw (.str reason) exampleWorld :=
  ⟨by decide,
    C3_open_failure_throws_with_path exampleWorld "missing.txt" (FileCompressor.ctor "Hello" "World")
      (FileEncryptor.mk (some 0)) (by decide)⟩

/-! ## The encryption key -/

/-- C4: in every world, whatever values `rand()` returns, the constructor of
`FileEncryptor` returns normally (no store falls outside the block) with the
pointer to a fresh live block of 16 cells; cell `i` for `i < 15` holds
`rand() % 64 + 0x20` for the `i`-th value of `rand()`, which lies in
`0x20..0x7E`; cell 15 holds 0; every other block of the free store is as it
was. -/
theorem C4_key_generation (w : World) :
    ∃ (w1 : World) (cells : List (Option Nat)),
      FileEncryptor.ctor w = .ok { _encryptionKey := some w.brk } w1 ∧
      w1.heap w.brk = some ⟨cells, true⟩ ∧
      cells.length = 16 ∧
      (∀ i : Fin 15, cells[i.val]? = some (some (randAt w i.val % 64 + 0x20)) ∧
        0x20 ≤ randAt w i.val % 64 + 0x20 ∧ randAt w i.val % 64 + 0x20 ≤ 0x7E) ∧
      cells[15]? = some (some 0) ∧
      (∀ a : Nat, cells[16 + a]? = none) ∧
      (∀ a : Nat, a = w.brk ∨ w1.heap a = w.heap a) := by
  refine ⟨keyedWorld w, keyCells w, ctor_eq w, by simp, by simp [keyCells], ?_, ?_, ?_, ?_⟩
  · intro i
    refine ⟨?_, by omega, by omega⟩
    have hi := i.isLt
    simp only [keyCells, range15]
    interval_cases i.val <;> rfl
  · simp [keyCells, range15]
  · intro a
    simp [keyCells]
  · intro a
    by_cases ha : a = w.brk
    · exact Or.inl ha
    · exact Or.inr (by simp [keyedWorld, ha])

/-- C5 (the code at the failing input): in every world, construct a
`FileEncryptor` and call `clearKey`; the call returns normally, prints its
message, releases the key block and leaves the pointer member as it was, still
non-null.  A second `clearKey`, and likewise the destructor, then applies
`delete` to the released block: undefined behaviour, not a no-op. -/
theorem C5_second_clearKey_releases_again (w : World) :
    ∃ (e : FileEncryptor) (w0 w1 : World),
      FileEncryptor.ctor w = .ok e w0 ∧
      e.clearKey w0 = .ok e w1 ∧
      e._encryptionKey = some w.brk ∧
      w1.out = w0.out ++ "Clearing encryption key\n" ∧
      w1.heap w.brk = some ⟨keyCells w, false⟩ ∧
      e.clearKey w1 = .ub ∧
      e.dtor w1 = .ub := by
  refine ⟨{ _encryptionKey := some w.brk }, keyedWorld w,
    { cout (keyedWorld w) "Clearing encryption key\n" with
      heap := Function.update (keyedWorld w).heap w.brk (some ⟨keyCells w, false⟩) },
    ctor_eq w, ?_, rfl, rfl, by simp, ?_, ?_⟩
  · simp [FileEncryptor.clearKey, deletePtr, Res.bind]
  · simp [FileEncryptor.clearKey, deletePtr, Res.bind]
  · simp [FileEncryptor.dtor, FileEncryptor.clearKey, deletePtr, Res.bind]

/-! ## Moving a compressor -/

/-- C6: move construction from a compressor with parameters `(p1, p2)` gives
a new compressor with exactly `(p1, p2)` and leaves the source with both
parameters empty; `compressFile` of the new object prints `p1` and `p2`, that
of the source prints two empty parameters. -/
theorem C6_move_construct_transfers (p1 p2 : String) (w : World) (fileContent : String) :
    (FileCompressor.moveCtor { _param1 := p1, _param2 := p2 }).1
      = { _param1 := p1, _param2 := p2 } ∧
    (FileCompressor.moveCtor { _param1 := p1, _param2 := p2 }).2
      = { _param1 := "", _param2 := "" } ∧
    ((FileCompressor.moveCtor { _param1 := p1, _param2 := p2 }).1.compressFile w fileContent).out
      = w.out ++ "compressing file with content: " ++ fileContent ++ " using params "
          ++ p1 ++ " " ++ p2 ++ "\n" ∧
    ((FileCompressor.moveCtor { _param1 := p1, _param2 := p2 }).2.compressFile w fileContent).out
      = w.out ++ "compressing file with content: " ++ fileContent ++ " using params "
          ++ "" ++ " " ++ "" ++ "\n" := by
  refine ⟨rfl, rfl, ?_, ?_⟩ <;>
    simp [FileCompressor.moveCtor, swap, FileCompressor.compressFile]

/-- C7 as stated fails: move-assigning a compressor with parameters
("Hello", "World") to one with parameters ("a", "b") does not leave the source
with both parameters empty. -/
theorem C7_source_not_emptied :
    ¬ ((FileCompressor.moveAssign { _param1 := "a", _param2 := "b" }
          { _param1 := "Hello", _param2 := "World" }).1
        = { _param1 := "Hello", _param2 := "World" } ∧
       (FileCompressor.moveAssign { _param1 := "a", _param2 := "b" }
          { _param1 := "Hello", _param2 := "World" }).2
        = { _param1 := "", _param2 := "" }) := by
  decide

/-- C7 amended: move assignment exchanges the parameters: the destination
ends with exactly the source's `(p1, p2)` and the source ends with the
destination's former `(q1, q2)`. -/
theorem C7_move_assign_exchanges (p1 p2 q1 q2 : String) :
    FileCompressor.moveAssign { _param1 := q1, _param2 := q2 } { _param1 := p1, _param2 := p2 }
      = ({ _param1 := p1, _param2 := p2 }, { _param1 := q1, _param2 := q2 }) := by
  simp [FileCompressor.moveAssign, swap]

/-! ## `main` -/

/-- C8 (the code at the failing input): with the unrecognized mode "bogus"
and no path, `main` prints nothing and returns 1, the status of a successful
run; with at least one path it calls `processFile` through the empty pointer,
which is undefined behaviour. -/
theorem C8_unrecognized_mode_in_main (w : World) (prog path : String) (rest : List String) :
    main w [prog, "bogus"] = .ok 1 w ∧
    main w (prog :: "bogus" :: path :: rest) = .ub := by
  have hc : createFileProcessor w "bogus" = .ok none w := by
    simp [createFileProcessor]
  constructor
  · simp [main, hc, processLoop, destroyUniquePtr, Res.bind]
  · simp [main, hc, processLoop]

/-! ### The tokenizer returns the first white-space-delimited token -/

theorem isspace_iff_mem_whitespace (c : Char) : isspace c = true ↔ c ∈ whitespace := by
  constructor
  · intro h
    have hc : c = Char.ofNat c.toNat := (Char.ofNat_toNat c).symm
    simp only [isspace, Bool.or_eq_true, Bool.and_eq_true, beq_iff_eq, decide_eq_true_eq] at h
    rcases h with h | ⟨h1, h2⟩
    · rw [hc, h]; decide
    · rw [hc]
      interval_cases c.toNat <;> decide
  · intro h
    simp only [whitespace, List.mem_cons, List.mem_singleton, List.not_mem_nil, or_false] at h
    rcases h with rfl | rfl | rfl | rfl | rfl | rfl <;> decide

theorem isspace_eq_false_of_not_mem (c : Char) (h : c ∉ whitespace) : isspace c = false := by
  rw [← isspace_iff_mem_whitespace] at h
  simpa using h

/-- Skipping leading white space removes exactly a white-space run that is
followed by a character which is not white space (or by nothing). -/
theorem dropWhile_isspace_lead (lead tail : List Char) (hlead : ∀ c ∈ lead, c ∈ whitespace)
    (htail : ∀ c ∈ tail.head?, c ∉ whitespace) :
    (lead ++ tail).dropWhile isspace = tail := by
  induction lead with
  | nil =>
    cases tail with
    | nil => rfl
    | cons c cs =>
      have hc : isspace c = false := isspace_eq_false_of_not_mem c (htail c (by simp))
      simp [List.dropWhile, hc]
  | cons c cs ih =>
    have hc : isspace c = true := (isspace_iff_mem_whitespace c).mpr (hlead c (by simp))
    simp [List.dropWhile, hc]
    exact ih (fun d hd => hlead d (List.mem_cons_of_mem c hd))

/-- Reading up to the next white space takes exactly a run free of white space
that is followed by a white-space character (or by nothing). -/
theorem takeWhile_token (t rest : List Char) (ht : ∀ c ∈ t, c ∉ whitespace)
    (hrest : ∀ c ∈ rest.head?, c ∈ whitespace) :
    (t ++ rest).takeWhile (fun c => !isspace c) = t := by
  induction t with
  | nil =>
    cases rest with
    | nil => rfl
    | cons c cs =>
      have hc : isspace c = true := (isspace_iff_mem_whitespace c).mpr (hrest c (by simp))
      simp [List.takeWhile, hc]
  | cons c cs ih =>
    have hc : isspace c = false := isspace_eq_false_of_not_mem c (ht c (by simp))
    simp [List.takeWhile, hc]
    exact ih (fun d hd => ht d (List.mem_cons_of_mem c hd))

/-- On a content made of a white-space run `lead`, a non-empty run `t` free of
white space, and a remainder `rest` that is empty or starts with white space,
`inp >> fileContent` reads exactly `t`. -/
theorem extractToken_first_token (lead t rest : String)
    (hlead : ∀ c ∈ lead.data, c ∈ whitespace)
    (ht : t.data ≠ [] ∧ ∀ c ∈ t.data, c ∉ whitespace)
    (hrest : ∀ c ∈ rest.data.head?, c ∈ whitespace) :
    extractToken (lead ++ t ++ rest) = t := by
  have hhead : ∀ c ∈ (t.data ++ rest.data).head?, c ∉ whitespace := by
    intro c hc
    cases htd : t.data with
    | nil => exact absurd htd ht.1
    | cons d ds =>
      rw [htd] at hc
      simp at hc
      subst hc
      exact ht.2 d (by simp [htd])
  have h1 := dropWhile_isspace_lead lead.data (t.data ++ rest.data) hlead hhead
  have h2 := takeWhile_token t.data rest.data ht.2 hrest
  simp only [extractToken, String.data_append, List.append_assoc, h1, h2]

/-- C9: let `path` be a file that can be opened and whose first
white-space-delimited token is `t`: its content is a run `lead` of white-space
characters, then the non-empty `t`, which has no white-space character, then a
remainder `rest` that is empty or starts with a white-space character.  Then
`main` with mode "compress" and that path returns 1 (the status of a successful
run), and its whole effect is to print
`compressing file with content: t using params Hello World` and a line feed.
The printed text contains `t`, "Hello" and "World", and it is one line: no
line feed occurs before the final one. -/
theorem C9_compress_end_to_end (w : World) (prog path lead t rest : String)
    (h : w.fs path = some (lead ++ t ++ rest))
    (hlead : ∀ c ∈ lead.data, c ∈ whitespace)
    (ht : t.data ≠ [] ∧ ∀ c ∈ t.data, c ∉ whitespace)
    (hrest : ∀ c ∈ rest.data.head?, c ∈ whitespace) :
    main w [prog, "compress", path]
      = .ok 1 (cout w ("compressing file with content: " ++ t ++ " using params "
          ++ "Hello" ++ " " ++ "World" ++ "\n")) ∧
    "compressing file with content: " ++ t ++ " using params " ++ "Hello" ++ " " ++ "World" ++ "\n"
      = "compressing file with content: " ++ t ++ " using params Hello World\n" ∧
    '\n' ∉ ("compressing file with content: " ++ t ++ " using params "
          ++ "Hello" ++ " " ++ "World").data := by
  have hc : createFileProcessor w "compress"
      = .ok (some (.compressor { _param1 := "Hello", _param2 := "World" })) w := by
    simp [createFileProcessor, FileCompressor.ctor]
  have htok := extractToken_first_token lead t rest hlead ht hrest
  rw [String.append_assoc] at htok
  refine ⟨?_, ?_, ?_⟩
  · simp [main, hc, processLoop, FileProcessor.processFile, FileCompressor.processFile, h, htok,
      FileCompressor.compressFile, destroyUniquePtr, FileProcessor.destroy, Res.bind, cout_cout,
      String.append_assoc]
  · simp [String.append_assoc]
  · have hnl : '\n' ∉ t.data := fun hmem => ht.2 '\n' hmem (by decide)
    simp only [String.data_append, List.mem_append, not_or]
    exact ⟨⟨⟨⟨⟨by decide, hnl⟩, by decide⟩, by decide⟩, by decide⟩, by decide⟩

/-- C9 at the file `b.txt` of the example world: two blanks, the token `two`,
then a blank and more text. -/
theorem C9_compress_end_to_end_witness :
    (exampleWorld.fs "b.txt" = some ("  " ++ "two" ++ " words\n") ∧
      (∀ c ∈ "  ".data, c ∈ whitespace) ∧
      ("two".data ≠ [] ∧ ∀ c ∈ "two".data, c ∉ whitespace) ∧
      (∀ c ∈ " words\n".data.head?, c ∈ whitespace)) ∧
    (main exampleWorld ["prog", "compress", "b.txt"]
      = .ok 1 (cout exampleWorld ("compressing file with content: " ++ "two" ++ " using params "
          ++ "Hello" ++ " " ++ "World" ++ "\n")) ∧
    "compressing file with content: " ++ "two" ++ " using params " ++ "Hello" ++ " " ++ "World"
        ++ "\n"
      = "compressing file with content: " ++ "two" ++ " using params Hello World\n" ∧
    '\n' ∉ ("compressing file with content: " ++ "two" ++ " using params "
          ++ "Hello" ++ " " ++ "World").data) :=
  ⟨⟨by decide, by decide, by decide, by decide⟩,
    C9_compress_end_to_end exampleWorld "prog" "b.txt" "  " "two" " words\n"
      (by decide) (by decide) (by decide) (by decide)⟩

/-- The loop over paths that can all be opened prints their lines in order. -/
theorem processLoop_all_open (fp : FileProcessor) (line : String → String) (Inv : World → Prop)
    (hInv : ∀ v s, Inv v → Inv (cout v s))
    (hok : ∀ v p c, Inv v → v.fs p = some c → fp.processFile v p = .ok () (cout v (line c))) :
    ∀ (paths : List String) (v : World), Inv v → (∀ p ∈ paths, v.fs p ≠ none) →
      processLoop (some fp) v paths
        = .ok () (cout v (concatLines (paths.map (lineAt v.fs line)))) := by
  intro paths
  induction paths with
  | nil =>
    intro v _ _
    simp [processLoop, concatLines, cout_empty]
  | cons p rest ih =>
    intro v hv hall
    have hp : v.fs p ≠ none := hall p (List.mem_cons_self p rest)
    obtain ⟨c, hc⟩ : ∃ c, v.fs p = some c := by
      cases hfs : v.fs p with
      | none => exact absurd hfs hp
      | some c => exact ⟨c, rfl⟩
    have hrest : ∀ q ∈ rest, (cout v (line c)).fs q ≠ none := by
      intro q hq
      simpa using hall q (List.mem_cons_of_mem p hq)
    have hstep := ih (cout v (line c)) (hInv v (line c) hv) hrest
    simp only [cout_fs] at hstep
    simp [processLoop, hok v p c hv hc, hstep, concatLines, lineAt, hc, cout_cout]

/-- The loop stops at the first path that cannot be opened, having printed the
lines of the paths before it. -/
theorem processLoop_first_failure (fp : FileProcessor) (line : String → String)
    (Inv : World → Prop)
    (hInv : ∀ v s, Inv v → Inv (cout v s))
    (hok : ∀ v p c, Inv v → v.fs p = some c → fp.processFile v p = .ok () (cout v (line c)))
    (hthrow : ∀ v p, v.fs p = none → fp.processFile v p = .throw (openFailure p) v)
    (bad : String) (after : List String) :
    ∀ (before : List String) (v : World), Inv v → (∀ p ∈ before, v.fs p ≠ none) →
      v.fs bad = none →
      processLoop (some fp) v (before ++ bad :: after)
        = .throw (openFailure bad) (cout v (concatLines (before.map (lineAt v.fs line)))) := by
  intro before
  induction before with
  | nil =>
    intro v _ _ hbad
    simp [processLoop, hthrow v bad hbad, concatLines, cout_empty]
  | cons p rest ih =>
    intro v hv hall hbad
    have hp : v.fs p ≠ none := hall p (List.mem_cons_self p rest)
    obtain ⟨c, hc⟩ : ∃ c, v.fs p = some c := by
      cases hfs : v.fs p with
      | none => exact absurd hfs hp
      | some c => exact ⟨c, rfl⟩
    have hrest : ∀ q ∈ rest, (cout v (line c)).fs q ≠ none := by
      intro q hq
      simpa using hall q (List.mem_cons_of_mem p hq)
    have hstep := ih (cout v (line c)) (hInv v (line c) hv) hrest (by simpa using hbad)
    simp only [cout_fs] at hstep
    simp [processLoop, hok v p c hv hc, hstep, concatLines, lineAt, hc, cout_cout]

theorem encoder_line (w v : World) (p c : String) (h : v.fs p = some c) :
    FileProcessor.encoder.processFile v p = .ok () (cout v (description w "encode" c)) := by
  simp [FileProcessor.processFile, FileEncoder.processFile, h, FileEncoder.encodeFile,
    description, cout_cout, String.append_assoc]

theorem compressor_line (w v : World) (p c : String) (h : v.fs p = some c) :
    (FileProcessor.compressor { _param1 := "Hello", _param2 := "World" }).processFile v p
      = .ok () (cout v (description w "compress" c)) := by
  simp [FileProcessor.processFile, FileCompressor.processFile, h, FileCompressor.compressFile,
    description, cout_cout, String.append_assoc]

theorem encryptor_line (w v : World) (a : Nat) (p c : String)
    (hk : v.heap a = some ⟨keyCells w, true⟩) (h : v.fs p = some c) :
    (FileProcessor.encryptor { _encryptionKey := some a }).processFile v p
      = .ok () (cout v (description w "encrypt" c)) := by
  have hr := readCString_key w
    (cout (cout (cout v "encrypting file with content: ") (extractToken c)) " using key ") a
    (by simpa using hk)
  simp only [cout_cout, String.append_assoc] at hr
  simp [FileProcessor.processFile, FileEncryptor.processFile, h, FileEncryptor.encryptFile, hr,
    description, cout_cout, String.append_assoc]

theorem processFile_open_failure (fp : FileProcessor) (hfp : fp ≠ .identity) (v : World)
    (p : String) (h : v.fs p = none) :
    fp.processFile v p = .throw (openFailure p) v := by
  cases fp with
  | identity => exact absurd rfl hfp
  | encoder => simp [FileProcessor.processFile, FileEncoder.processFile, h]
  | compressor c => simp [FileProcessor.processFile, FileCompressor.processFile, h]
  | encryptor e => simp [FileProcessor.processFile, FileEncryptor.processFile, h]

/-- Destroying the encryptor whose key block is live prints the message of
`clearKey` and returns normally. -/
theorem destroy_encryptor (w v : World) (a : Nat) (hk : v.heap a = some ⟨keyCells w, true⟩) :
    ∃ v1, destroyUniquePtr (some (.encryptor { _encryptionKey := some a })) v = .ok () v1 ∧
      v1.out = v.out ++ "Clearing encryption key\n" := by
  refine ⟨{ cout v "Clearing encryption key\n" with
    heap := Function.update v.heap a (some ⟨keyCells w, false⟩) }, ?_, rfl⟩
  simp [destroyUniquePtr, FileProcessor.destroy, FileEncryptor.dtor, FileEncryptor.clearKey,
    deletePtr, hk, Res.bind]

/-- C10: for each of the modes "encode", "compress" and "encrypt", `main`
handles the paths in the order given and stops at the first one that cannot be
opened.  If every path can be opened, the lines of all paths are printed in
order and 1, the status of a successful run, is returned.  If `bad` is the
first path that cannot be opened, exactly the lines of the paths before it are
printed, in order, followed by the diagnostic `Something wrong`, nothing is
printed for `bad` or any later path, and 0, the failure status, is returned.
In both cases the destruction of the processor follows, which for "encrypt"
prints the message of `clearKey`. -/
theorem C10_in_order_stop_at_first_failure (w : World) (prog mode : String)
    (hm : mode = "encode" ∨ mode = "compress" ∨ mode = "encrypt") :
    (∀ paths : List String, (∀ p ∈ paths, w.fs p ≠ none) →
      ∃ w1, main w (prog :: mode :: paths) = .ok 1 w1 ∧
        w1.out = w.out ++ concatLines (paths.map (lineAt w.fs (description w mode)))
          ++ epilogue mode) ∧
    (∀ (before : List String) (bad : String) (after : List String),
      (∀ p ∈ before, w.fs p ≠ none) → w.fs bad = none →
      ∃ w1, main w (prog :: mode :: (before ++ bad :: after)) = .ok 0 w1 ∧
        w1.out = w.out ++ concatLines (before.map (lineAt w.fs (description w mode)))
          ++ "Something wrong" ++ epilogue mode) := by
  rcases hm with rfl | rfl | rfl
  · have hc : createFileProcessor w "encode" = .ok (some .encoder) w := by
      simp [createFileProcessor]
    constructor
    · intro paths hall
      have hl := processLoop_all_open .encoder (description w "encode") (fun _ => True)
        (fun _ _ _ => trivial) (fun v p c _ h => encoder_line w v p c h) paths w trivial hall
      exact ⟨_, by simp [main, hc, hl, destroyUniquePtr, FileProcessor.destroy, Res.bind]; rfl,
        by simp [epilogue]⟩
    · intro before bad after hall hbad
      have hl := processLoop_first_failure .encoder (description w "encode") (fun _ => True)
        (fun _ _ _ => trivial) (fun v p c _ h => encoder_line w v p c h)
        (fun v p h => processFile_open_failure .encoder (by simp) v p h)
        bad after before w trivial hall hbad
      exact ⟨_, by simp [main, hc, hl, destroyUniquePtr, FileProcessor.destroy, Res.bind]; rfl,
        by simp [epilogue]⟩
  · have hc : createFileProcessor w "compress"
        = .ok (some (.compressor { _param1 := "Hello", _param2 := "World" })) w := by
      simp [createFileProcessor, FileCompressor.ctor]
    constructor
    · intro paths hall
      have hl := processLoop_all_open (.compressor { _param1 := "Hello", _param2 := "World" })
        (description w "compress") (fun _ => True)
        (fun _ _ _ => trivial) (fun v p c _ h => compressor_line w v p c h) paths w trivial hall
      exact ⟨_, by simp [main, hc, hl, destroyUniquePtr, FileProcessor.destroy, Res.bind]; rfl,
        by simp [epilogue]⟩
    · intro before bad after hall hbad
      have hl := processLoop_first_failure
        (.compressor { _param1 := "Hello", _param2 := "World" })
        (description w "compress") (fun _ => True)
        (fun _ _ _ => trivial) (fun v p c _ h => compressor_line w v p c h)
        (fun v p h => processFile_open_failure _ (by simp) v p h)
        bad after before w trivial hall hbad
      exact ⟨_, by simp [main, hc, hl, destroyUniquePtr, FileProcessor.destroy, Res.bind]; rfl,
        by simp [epilogue]⟩
  · have hc : createFileProcessor w "encrypt"
        = .ok (some (.encryptor { _encryptionKey := some w.brk })) (keyedWorld w) := by
      simp [createFileProcessor, ctor_eq, Res.bind]
    constructor
    · intro paths hall
      have hl := processLoop_all_open (.encryptor { _encryptionKey := some w.brk })
        (description w "encrypt") (fun v => v.heap w.brk = some ⟨keyCells w, true⟩)
        (fun v s hv => by simpa using hv)
        (fun v p c hv h => encryptor_line w v w.brk p c hv h) paths (keyedWorld w)
        (keyedWorld_heap_brk w) (by simpa using hall)
      obtain ⟨v1, hd, hout⟩ := destroy_encryptor w
        (cout (keyedWorld w)
          (concatLines (paths.map (lineAt w.fs (description w "encrypt")))))
        w.brk (by simp)
      rw [keyedWorld_fs] at hl
      exact ⟨v1, by simp [main, hc, hl, hd, Res.bind], by simp [hout, epilogue]⟩
    · intro before bad after hall hbad
      have hl := processLoop_first_failure (.encryptor { _encryptionKey := some w.brk })
        (description w "encrypt") (fun v => v.heap w.brk = some ⟨keyCells w, true⟩)
        (fun v s hv => by simpa using hv)
        (fun v p c hv h => encryptor_line w v w.brk p c hv h)
        (fun v p h => processFile_open_failure _ (by simp) v p h)
        bad after before (keyedWorld w) (keyedWorld_heap_brk w) (by simpa using hall)
        (by simpa using hbad)
      obtain ⟨v1, hd, hout⟩ := destroy_encryptor w
        (cout (cout (keyedWorld w)
          (concatLines (before.map (lineAt w.fs (description w "encrypt")))))
          "Something wrong")
        w.brk (by simp)
      rw [keyedWorld_fs] at hl
      exact ⟨v1, by simp [main, hc, hl, hd, Res.bind], by simp [hout, epilogue]⟩

/-- C10 at the mode "encrypt" in the example world. -/
theorem C10_in_order_stop_at_first_failure_witness :
    ("encrypt" = "encode" ∨ "encrypt" = "compress" ∨ "encrypt" = "encrypt") ∧
    ((∀ paths : List String, (∀ p ∈ paths, exampleWorld.fs p ≠ none) →
      ∃ w1, main exampleWorld ("prog" :: "encrypt" :: paths) = .ok 1 w1 ∧
        w1.out = exampleWorld.out
          ++ concatLines (paths.map (lineAt exampleWorld.fs (description exampleWorld "encrypt")))
          ++ epilogue "encrypt") ∧
    (∀ (before : List String) (bad : String) (after : List String),
      (∀ p ∈ before, exampleWorld.fs p ≠ none) → exampleWorld.fs bad = none →
      ∃ w1, main exampleWorld ("prog" :: "encrypt" :: (before ++ bad :: after)) = .ok 0 w1 ∧
        w1.out = exampleWorld.out
          ++ concatLines (before.map (lineAt exampleWorld.fs (description exampleWorld "encrypt")))
          ++ "Something wrong" ++ epilogue "encrypt")) :=
  ⟨by decide, C10_in_order_stop_at_first_failure exampleWorld "prog" "encrypt" (by decide)⟩

end Refactored
